import Mathlib

/-!
Shallow embedding of the control core of the Term-Project line-following
robot (files `encoder_romi.py`, `ClosedLoop.py`, `BNO055.py`, `src/main.py`)
together with proofs and refutations of the specification's claims.

Conventions of the embedding:
* Python integers become `ℤ` (or `ℕ` for values that are bytes / unsigned
  queue entries); Python float arithmetic on these programs only ever
  divides integers whose magnitudes are far below 2^53, so it is exact and
  is embedded as `ℚ`.
* Each mutable object becomes a structure; a method that mutates `self`
  becomes a function `State → ... → State` (or returns an `Except` when the
  Python method can raise).
* Hardware reads (`tim.counter()`, `ADC.read()`, `ticks_ms()`, pin values)
  become explicit arguments of the step functions; hardware writes
  (`set_duty`, `i2c.writeto_mem`, `print`) are collected in the returned
  record, in issue order.
-/

/-! ## Encoder (`encoder_romi.py`) -/

/-- State of `encoder_romi.Encoder`.  The fields mirror the attributes set
in `Encoder.__init__`; `limit` and `neg_limit` are Python floats computed by
true division `/`, hence embedded in `ℚ`; the timer-channel attributes have
no arithmetic content and are omitted. -/
structure Encoder where
  idx : ℤ
  delta : ℤ
  count : ℤ
  old_count : ℤ
  auto_reload : ℤ
  limit : ℚ
  neg_limit : ℚ
  AR1 : ℤ
  position : ℤ
  deriving Repr, DecidableEq

/-- `Encoder.__init__(self, ENC_tim, ENC_CH_A, ENC_CH_B, auto_r)`. -/
def Encoder.init (auto_r : ℤ) : Encoder :=
  { idx := 0
    delta := 0
    count := 0
    old_count := 0
    auto_reload := auto_r
    limit := ((auto_r : ℚ) + 1) / 2
    neg_limit := -1 * ((auto_r : ℚ) + 1) / 2
    AR1 := auto_r + 1
    position := 0 }

/-- `Encoder.update(self)`; the hardware read `self.tim.counter()` is the
argument `counter`. -/
def Encoder.update (e : Encoder) (counter : ℤ) : Encoder :=
  let count := counter
  let delta := count - e.old_count
  let delta :=
    if (delta : ℚ) > e.limit then delta - e.AR1
    else if (delta : ℚ) < e.neg_limit then delta + e.AR1
    else delta
  { e with
    count := count
    delta := delta
    position := e.position + delta
    old_count := count }

/-- `Encoder.get_position(self)`. -/
def Encoder.get_position (e : Encoder) : ℤ := e.position

/-- `Encoder.get_delta(self)`. -/
def Encoder.get_delta (e : Encoder) : ℤ := e.delta

/-- `Encoder.zero(self)`. -/
def Encoder.zero (e : Encoder) : Encoder :=
  { e with position := 0, delta := 0, count := 0, old_count := 0 }

/-- Folding `Encoder.update` over a list of successive hardware counter
readings. -/
def Encoder.updates (e : Encoder) (cs : List ℤ) : Encoder :=
  cs.foldl Encoder.update e

/-- The wraparound correction applied by `Encoder.update` to a raw
difference `d` of counter readings, for auto-reload value `ar`: the same
comparison against `(ar+1)/2` (a Python float, exact here) and the same
`± (ar+1)` adjustment. -/
def wrapCorr (ar : ℤ) (d : ℤ) : ℤ :=
  if (d : ℚ) > ((ar : ℚ) + 1) / 2 then d - (ar + 1)
  else if (d : ℚ) < -1 * ((ar : ℚ) + 1) / 2 then d + (ar + 1)
  else d

/-- The list of wraparound-corrected deltas of a reading sequence `cs`,
starting from previous count `prev`. -/
def corrDeltas (ar : ℤ) (prev : ℤ) : List ℤ → List ℤ
  | [] => []
  | c :: cs => wrapCorr ar (c - prev) :: corrDeltas ar c cs

/-! Integer characterisations of the rational comparisons used in
`Encoder.update` and `wrapCorr`. -/

/-- An encoder whose derived fields (`limit`, `neg_limit`, `AR1`) agree with
its `auto_reload`, as `Encoder.init` guarantees. -/
def Encoder.Coherent (e : Encoder) : Prop :=
  e.limit = ((e.auto_reload : ℚ) + 1) / 2 ∧
  e.neg_limit = -1 * ((e.auto_reload : ℚ) + 1) / 2 ∧
  e.AR1 = e.auto_reload + 1

/-! ## PID controller (`ClosedLoop.py`) -/

/-- State of `ClosedLoop.ClosedLoop`.  All numeric attributes are embedded
in `ℚ` (the Python code mixes ints and floats; every operation used is
exact).  `proportional` and `L` are first assigned inside `update` in the
Python class; they are carried here from the start, initialised to `0`. -/
structure ClosedLoop where
  Kp : ℚ
  Ki : ℚ
  meas : ℚ
  ref : ℚ
  error : ℚ
  integral : ℚ
  period : ℚ
  proportional : ℚ
  L : ℚ
  deriving Repr, DecidableEq

/-- `ClosedLoop.__init__(self, period, Kp, Ki, ref, meas)`; note
`self.period = period/1000`. -/
def ClosedLoop.init (period Kp Ki ref meas : ℚ) : ClosedLoop :=
  { Kp := Kp
    Ki := Ki
    meas := meas
    ref := ref
    error := 0
    integral := 0
    period := period / 1000
    proportional := 0
    L := 0 }

/-- `ClosedLoop.set_Kp(self, Kp)`. -/
def ClosedLoop.set_Kp (c : ClosedLoop) (Kp : ℚ) : ClosedLoop := { c with Kp := Kp }

/-- `ClosedLoop.set_Ki(self, Ki)`. -/
def ClosedLoop.set_Ki (c : ClosedLoop) (Ki : ℚ) : ClosedLoop := { c with Ki := Ki }

/-- `ClosedLoop.setpoint(self, ref)`. -/
def ClosedLoop.setpoint (c : ClosedLoop) (ref : ℚ) : ClosedLoop := { c with ref := ref }

/-- `ClosedLoop.update(self)`: returns the controller output `L` and the
mutated state. -/
def ClosedLoop.update (c : ClosedLoop) : ℚ × ClosedLoop :=
  let error := c.ref - c.meas
  let proportional := c.Kp * error
  let integral := c.integral + c.Ki * error * c.period
  let L := proportional + integral
  (L, { c with
          error := error
          proportional := proportional
          integral := integral
          L := L })

/-- `n` successive calls of `ClosedLoop.update`, keeping only the state. -/
def ClosedLoop.updates (c : ClosedLoop) : ℕ → ClosedLoop
  | 0 => c
  | n + 1 => ((c.updates n).update).2

/-! ## Inertial sensor driver (`BNO055.py`)

The device is reached over a register-addressed bus; we embed the device's
register file as a function `mem : ℕ → ℕ` (register address to byte) and
the two bus primitives `i2c.readfrom_mem` / `i2c.writeto_mem` as explicit
pure functions.  The constant device address `0x28` carries no information
in this embedding and is dropped. -/

/-- `i2c.readfrom_mem(addr, reg, n)`: the `n` bytes stored at registers
`reg, reg+1, ..., reg+n-1`. -/
def readfrom_mem (mem : ℕ → ℕ) (reg n : ℕ) : List ℕ :=
  (List.range n).map fun i => mem (reg + i)

/-- `i2c.writeto_mem(addr, reg, data)`: the register file after writing
`data` at consecutive registers starting at `reg`. -/
def writeto_mem (mem : ℕ → ℕ) (reg : ℕ) (data : List ℕ) : ℕ → ℕ :=
  fun a => if reg ≤ a ∧ a < reg + data.length then data.getD (a - reg) (mem a) else mem a

/-- `struct.unpack("<22B", buffer)`: succeeds exactly on a 22-byte buffer
and yields its 22 unsigned byte values (little-endian order is the
identity on single bytes). -/
def struct_unpack_22B (bs : List ℕ) : Except String (List ℕ) :=
  if bs.length = 22 then .ok bs else .error "unpack requires a buffer of 22 bytes"

/-- `struct.pack("<22B", *values)`: succeeds exactly on 22 values each in
`[0, 255]` and yields the 22-byte buffer. -/
def struct_pack_22B (vs : List ℕ) : Except String (List ℕ) :=
  if vs.length = 22 ∧ ∀ v ∈ vs, v < 256 then .ok vs else .error "byte argument out of range"

/-- `BNO055.read_calibration_coefficients(self)`: reads the 22-byte block
at register `0x55` and unpacks it. -/
def BNO055.read_calibration_coefficients (mem : ℕ → ℕ) : Except String (List ℕ) :=
  struct_unpack_22B (readfrom_mem mem 0x55 22)

/-- `BNO055.write_calibration_coefficients(self, coefficients)`: packs the
22 coefficients and writes the block back at register `0x55`, returning the
new register file. -/
def BNO055.write_calibration_coefficients (mem : ℕ → ℕ) (coefficients : List ℕ) :
    Except String (ℕ → ℕ) :=
  (struct_pack_22B coefficients).map fun packed => writeto_mem mem 0x55 packed

/-! Axis-remap constants from `BNO055.__init__`. -/

/-- `self.AXIS_REMAP_P0 .. P7` from `BNO055.__init__`, as a table indexed
by placement. -/
def axisRemapByte (p : ℤ) : ℕ :=
  if p = 0 then 0x21 else if p = 1 then 0x24 else if p = 2 then 0x24
  else if p = 3 then 0x21 else if p = 4 then 0x24 else if p = 5 then 0x21
  else if p = 6 then 0x21 else if p = 7 then 0x24 else 0

/-- `self.AXIS_REMAP_SIGN_P0 .. P7` from `BNO055.__init__`, as a table
indexed by placement. -/
def axisSignByte (p : ℤ) : ℕ :=
  if p = 0 then 0x04 else if p = 1 then 0x00 else if p = 2 then 0x06
  else if p = 3 then 0x02 else if p = 4 then 0x03 else if p = 5 then 0x01
  else if p = 6 then 0x07 else if p = 7 then 0x05 else 0

/-- `BNO055.remap_axes(self, placement)`: returns the sequence of
`(register, byte)` bus writes it performs, or the `ValueError` message; the
`raise` in the Python code happens before either `writeto_mem` call, so the
error case performs no bus write. -/
def BNO055.remap_axes (placement : ℤ) : Except String (List (ℕ × ℕ)) := do
  let rs ←
    if placement = 0 then pure ((0x21 : ℕ), (0x04 : ℕ))
    else if placement = 1 then pure (0x24, 0x00)
    else if placement = 2 then pure (0x24, 0x06)
    else if placement = 3 then pure (0x21, 0x02)
    else if placement = 4 then pure (0x24, 0x03)
    else if placement = 5 then pure (0x21, 0x01)
    else if placement = 6 then pure (0x21, 0x07)
    else if placement = 7 then pure (0x24, 0x05)
    else Except.error "Invalid placement value"
  pure [(0x41, rs.1), (0x42, rs.2)]

/-! ## Maneuver queues and line classifier (`src/main.py`)

`turn_q_r` and `turn_q_l` are `task_share.Queue('H', 1000, ...)` instances.
`task_share` is an external collaborator (spec §6): a fixed-capacity FIFO
with non-blocking capacity queries `any()`/`full()`, `put` appending and
`get` removing the oldest element.  We embed that contract. -/

/-- A fixed-capacity FIFO queue of unsigned-short maneuver codes. -/
structure Queue where
  items : List ℕ
  capacity : ℕ
  deriving Repr, DecidableEq

/-- `Queue.full()`. -/
def Queue.full (q : Queue) : Bool := q.capacity ≤ q.items.length

/-- `Queue.any()`. -/
def Queue.any (q : Queue) : Bool := !q.items.isEmpty

/-- `Queue.put(value)` (append). -/
def Queue.put (q : Queue) (v : ℕ) : Queue := { q with items := q.items ++ [v] }

/-- `Queue.get()` (remove and return the oldest element). -/
def Queue.get (q : Queue) : ℕ × Queue := (q.items.headD 0, { q with items := q.items.tail })

/-- State of `main.sensor`: the placeholder state field and the two fixed
thresholds set in `sensor.__init__`. -/
structure Sensor where
  state : ℤ
  black : ℤ
  white : ℤ
  deriving Repr, DecidableEq

/-- `sensor.__init__` (the six ADC channel handles carry no state). -/
def Sensor.init : Sensor := { state := 0, black := 2000, white := 2000 }

/-- What one cycle of `sensor.sen_gen` produces: the new object state, the
two queues after the cycle's puts, and the diagnostics printed. -/
structure SenResult where
  sensor : Sensor
  ql : Queue
  qr : Queue
  prints : List String
  deriving Repr, DecidableEq

/-- One cycle of `sensor.sen_gen` (the body of the `while True` loop up to
the `yield`).  The six arguments are this cycle's ADC readings
`S11.read() .. S1.read()` (each channel is assumed stable within the
cycle); `ql`, `qr` are `turn_q_l`, `turn_q_r`.  The decision table is the
ordered `if/elif` chain of the source; each branch appends the same code to
both queues, and the turn branches first print a queue-full diagnostic when
the queue they check is at capacity.  A state other than 0 raises
`ValueError`. -/
def Sensor.sen_step (s : Sensor) (s11 s9 s7 s5 s3 s1 : ℤ) (ql qr : Queue) :
    Except String SenResult :=
  if s.state = 0 then
    -- GO STRAIGHT
    if s9 < s.white ∧ s7 > s.black ∧ s5 > s.black ∧ s3 < s.white then
      .ok ⟨{ s with state := 0 }, ql.put 3, qr.put 3, []⟩
    -- LEFT 1
    else if s3 > s.black ∧ s5 > s.black then
      .ok ⟨{ s with state := 0 }, ql.put 1, qr.put 1,
        if qr.full then ["RIGHT QUEUE FULL"] else []⟩
    -- LEFT 2
    else if s1 > s.black ∧ s3 > s.black then
      .ok ⟨{ s with state := 0 }, ql.put 4, qr.put 4,
        if qr.full then ["RIGHT QUEUE FULL"] else []⟩
    -- LEFT 3
    else if s1 > s.black ∧ s3 < s.white ∧ s5 < s.white ∧ s7 < s.white ∧
        s9 < s.white ∧ s11 < s.white then
      .ok ⟨{ s with state := 0 }, ql.put 5, qr.put 5,
        if qr.full then ["RIGHT QUEUE FULL"] else []⟩
    -- LEFT 4
    else if s5 > s.black ∧ s7 > s.black ∧ s9 > s.black then
      .ok ⟨{ s with state := 0 }, ql.put 6, qr.put 6,
        if qr.full then ["RIGHT QUEUE FULL"] else []⟩
    -- LEFT 5
    else if s5 > s.black ∧ s7 > s.black ∧ s9 > s.black ∧ s11 > s.black then
      .ok ⟨{ s with state := 0 }, ql.put 7, qr.put 7,
        if qr.full then ["RIGHT QUEUE FULL"] else []⟩
    -- RIGHT 1
    else if s7 > s.black ∧ s9 > s.black then
      .ok ⟨{ s with state := 0 }, ql.put 2, qr.put 2,
        if ql.full then ["LEFT QUEUE FULL"] else []⟩
    -- RIGHT 2
    else if s9 > s.black ∧ s11 > s.black then
      .ok ⟨{ s with state := 0 }, ql.put 8, qr.put 8,
        if ql.full then ["LEFT QUEUE FULL"] else []⟩
    -- RIGHT 3
    else if s11 > s.black ∧ s3 < s.white ∧ s5 < s.white ∧ s7 < s.white ∧
        s9 < s.white ∧ s1 < s.white then
      .ok ⟨{ s with state := 0 }, ql.put 9, qr.put 9,
        if ql.full then ["LEFT QUEUE FULL"] else []⟩
    -- RIGHT 4
    else if s3 > s.black ∧ s5 > s.black ∧ s7 > s.black then
      .ok ⟨{ s with state := 0 }, ql.put 10, qr.put 10,
        if ql.full then ["LEFT QUEUE FULL"] else []⟩
    -- RIGHT 5
    else if s1 > s.black ∧ s3 > s.black ∧ s5 > s.black ∧ s7 > s.black then
      .ok ⟨{ s with state := 0 }, ql.put 11, qr.put 11,
        if ql.full then ["LEFT QUEUE FULL"] else []⟩
    -- default to go straight
    else
      .ok ⟨{ s with state := 0 }, ql.put 3, qr.put 3, []⟩
  else
    .error "Invalid State"

/-! ## Drive state machine (`main.motor`)

One instance per wheel.  Hardware interactions of one `mot_gen` cycle:
`time.ticks_ms()` is the argument `t`; `self.enc.update()` reads the timer
counter (argument `counter`; the re-read made inside state 13 is the
argument `counter2`); every `self.mot.set_duty(x)` is collected in `cmds`;
every `print` in `prints`; `encReads` counts the calls made to the
odometer object (`update`, `get_delta`, `get_position`, `zero`) during the
cycle. -/

/-- State of `main.motor`; fields mirror `motor.__init__` (`m_per = 5`).
The constructor also issues one `set_duty(0)` at construction time, before
any cycle runs. -/
structure Motor where
  state : ℤ
  set : String
  v_ref : ℤ
  start : ℤ
  end_ : ℤ
  count : ℤ
  v_meas : ℚ
  v_set : ℤ
  Kp : ℚ
  Ki : ℚ
  adjust1 : ℤ
  adjust2 : ℤ
  adjust3 : ℤ
  adjust4 : ℤ
  adjust5 : ℤ
  period : ℤ
  offset : ℤ
  back : ℤ
  turn : ℤ
  forw : ℤ
  enc : Encoder
  deriving Repr, DecidableEq

/-- `motor.__init__(self, motor, encoder, me_set)`. -/
def Motor.init (enc : Encoder) (me_set : String) : Motor :=
  { state := 0
    set := me_set
    v_ref := 15
    start := 0
    end_ := 0
    count := 0
    v_meas := 0
    v_set := 0
    Kp := 8 / 5
    Ki := 15
    adjust1 := 10
    adjust2 := 40
    adjust3 := 85
    adjust4 := 25
    adjust5 := 30
    period := 5
    offset := 3
    back := 0
    turn := 0
    forw := 0
    enc := enc }

/-- What one cycle of `motor.mot_gen` produces on normal return. -/
structure MotResult where
  motor : Motor
  queue : Queue
  cmds : List ℤ
  encReads : ℕ
  prints : List String
  deriving Repr, DecidableEq

/-- The two exceptions a `mot_gen` cycle can raise, carrying the object
state at the raise point: `ZeroDivisionError` from `d/t` with `t = 0`
(the encoder has been updated and `self.end` set, but no duty command was
issued and `self.state` is unchanged), and `ValueError` from the trailing
`else` for a state outside 0–13. -/
inductive MotErr where
  | zeroDivision (m : Motor)
  | invalidState (m : Motor)
  deriving Repr, DecidableEq

/-- The cycle preamble before the division: `self.enc.update()` and
`self.end = time.ticks_ms()`. -/
def Motor.preamble (m : Motor) (counter t : ℤ) : Motor :=
  { m with enc := m.enc.update counter, end_ := t }

/-- The velocity estimate and `self.start = self.end`, performed after the
division `d/t` succeeded: `self.v_meas = (d/t)*(1000/1440)`. -/
def Motor.vmeas_update (m : Motor) : Motor :=
  { m with
    v_meas := ((m.enc.get_delta : ℚ) / (((m.end_ - m.start) : ℤ) : ℚ)) * (1000 / 1440)
    start := m.end_ }

/-- The shared body of the graded-turn states 1–11 of `motor.mot_gen`:
`if self.set == "R": set_duty(rCmd)  elif self.set == "L": set_duty(lCmd)`
followed by `self.state = 0`.  Each of those eleven states in the source
instantiates exactly this shape with its own two duty expressions, which
`Motor.dispatch` passes in. -/
def Motor.turnCmd (m : Motor) (q : Queue) (rCmd lCmd : ℤ) : Except MotErr MotResult :=
  if m.set = "R" then .ok ⟨{ m with state := 0 }, q, [rCmd], 2, []⟩
  else if m.set = "L" then .ok ⟨{ m with state := 0 }, q, [lCmd], 2, []⟩
  else .ok ⟨{ m with state := 0 }, q, [], 2, []⟩

/-- The state dispatch of `motor.mot_gen` (the `if self.state == 0: ...`
chain), applied to the motor after the preamble and velocity update.  `q`
is this wheel's queue (`turn_q_r` for the `"R"` instance, `turn_q_l` for
`"L"`); `counter2` is the value the timer counter would deliver to the
`self.enc.update()` calls made inside state 13. -/
def Motor.dispatch (m : Motor) (q : Queue) (counter2 : ℤ) : Except MotErr MotResult :=
  -- STATE 0 - WAITING STATE TO SEE WHAT TO DO
  if m.state = 0 then
    if m.set = "R" then
      if q.any then .ok ⟨{ m with state := ((q.get).1 : ℤ) }, (q.get).2, [], 2, []⟩
      else .ok ⟨m, q, [m.v_ref], 2, []⟩
    else if m.set = "L" then
      if q.any then .ok ⟨{ m with state := ((q.get).1 : ℤ) }, (q.get).2, [], 2, []⟩
      else .ok ⟨m, q, [m.v_ref + 0], 2, []⟩
    else .ok ⟨m, q, [m.v_ref], 2, []⟩
  -- STATE 1 - LEFT 1
  else if m.state = 1 then m.turnCmd q (m.v_ref + m.adjust1) (m.v_ref - m.adjust1 + 0)
  -- STATE 2 - RIGHT 1
  else if m.state = 2 then m.turnCmd q (m.v_ref - m.adjust1) (m.v_ref + m.adjust1 + 0)
  -- STATE 3 - FORWARD
  else if m.state = 3 then .ok ⟨{ m with state := 0 }, q, [m.v_ref], 2, []⟩
  -- STATE 4 - LEFT 2
  else if m.state = 4 then m.turnCmd q (m.v_ref + m.adjust2) (m.v_ref - m.adjust2 + 0)
  -- STATE 5 - LEFT 3
  else if m.state = 5 then m.turnCmd q (m.v_ref + m.adjust3) (m.v_ref - m.adjust3 + 0)
  -- STATE 6 - LEFT 4
  else if m.state = 6 then m.turnCmd q (m.v_ref + m.adjust4) (m.v_ref - m.adjust4 + 0)
  -- STATE 7 - LEFT 5
  else if m.state = 7 then m.turnCmd q (m.v_ref + m.adjust4) (m.v_ref - m.adjust4 + 0)
  -- STATE 8 - RIGHT 2
  else if m.state = 8 then m.turnCmd q (m.v_ref - m.adjust2 + m.offset) (m.v_ref + m.adjust2 + 0)
  -- STATE 9 - RIGHT 3
  else if m.state = 9 then m.turnCmd q (m.v_ref - m.adjust3 + m.offset) (m.v_ref + m.adjust3 + 0)
  -- STATE 10 - RIGHT 4
  else if m.state = 10 then m.turnCmd q (m.v_ref - m.adjust4 + m.offset) (m.v_ref + m.adjust4 + 0)
  -- STATE 11 - RIGHT 5
  else if m.state = 11 then m.turnCmd q (m.v_ref - m.adjust5 + m.offset) (m.v_ref + m.adjust5 + 0)
  -- STATE 12 - STOP
  else if m.state = 12 then .ok ⟨{ m with state := 0 }, q, [0], 2, []⟩
  -- STATE 13 - TURN SEQUENCE
  else if m.state = 13 then
    if m.back = 0 ∧ m.turn = 0 ∧ m.forw = 0 then
      .ok ⟨{ m with enc := (m.enc.zero).update counter2, back := 1 }, q, [], 4, ["FIRST"]⟩
    else if m.back = 1 then
      if |((m.enc.zero).update counter2).get_position| < 1440 then
        .ok ⟨{ m with enc := (m.enc.zero).update counter2 }, q, [-3], 6,
          ["SECOND", toString |((m.enc.zero).update counter2).get_position|]⟩
      else
        if m.count < 1000 then
          .ok ⟨{ m with enc := (m.enc.zero).update counter2, turn := 1, back := 0,
                        count := m.count + 1, state := 13 }, q, [0], 5, ["SECOND"]⟩
        else
          .ok ⟨{ m with enc := (m.enc.zero).update counter2, turn := 1, back := 0,
                        state := 0 }, q, [0], 5, ["SECOND"]⟩
    else .ok ⟨{ m with state := 0 }, q, [], 2, ["DONE"]⟩
  else .error (.invalidState m)

/-- One cycle of `motor.mot_gen` (the body of the `while True` loop up to
the `yield`): the preamble, then `t = self.end - self.start` feeding the
division `d/t` (raising `ZeroDivisionError` when `t` is zero), then the
velocity estimate and the state dispatch. -/
def Motor.mot_step (m : Motor) (q : Queue) (counter counter2 t : ℤ) :
    Except MotErr MotResult :=
  if (m.preamble counter t).end_ - (m.preamble counter t).start = 0 then
    .error (.zeroDivision (m.preamble counter t))
  else ((m.preamble counter t).vmeas_update).dispatch q counter2

/-! ## Lemmas and claim theorems -/

lemma rat_gt_half_iff (a d : ℤ) :
    ((d : ℚ) > ((a : ℚ) + 1) / 2) ↔ a + 1 < 2 * d := by
  rw [gt_iff_lt, div_lt_iff (by norm_num : (0 : ℚ) < 2)]
  constructor
  · intro h
    have : ((a : ℚ) + 1) < ((2 * d : ℤ) : ℚ) := by push_cast; linarith
    exact_mod_cast (by exact_mod_cast this : ((a + 1 : ℤ) : ℚ) < ((2 * d : ℤ) : ℚ))
  · intro h
    have : ((a + 1 : ℤ) : ℚ) < ((2 * d : ℤ) : ℚ) := by exact_mod_cast h
    push_cast at this
    linarith

lemma rat_lt_neg_half_iff (a d : ℤ) :
    ((d : ℚ) < -1 * ((a : ℚ) + 1) / 2) ↔ 2 * d < -(a + 1) := by
  have h2 : (0 : ℚ) < 2 := by norm_num
  rw [show (-1 * ((a : ℚ) + 1) / 2) = (-((a : ℚ) + 1)) / 2 by ring,
    lt_div_iff h2]
  constructor
  · intro h
    have : ((2 * d : ℤ) : ℚ) < ((-(a + 1) : ℤ) : ℚ) := by push_cast; linarith
    exact_mod_cast this
  · intro h
    have : ((2 * d : ℤ) : ℚ) < ((-(a + 1) : ℤ) : ℚ) := by exact_mod_cast h
    push_cast at this
    linarith

/-- `wrapCorr` in purely integer terms. -/
lemma wrapCorr_eq_int (ar d : ℤ) :
    wrapCorr ar d =
      if ar + 1 < 2 * d then d - (ar + 1)
      else if 2 * d < -(ar + 1) then d + (ar + 1)
      else d := by
  unfold wrapCorr
  by_cases h1 : ar + 1 < 2 * d
  · rw [if_pos ((rat_gt_half_iff ar d).2 h1), if_pos h1]
  · rw [if_neg (fun hc => h1 ((rat_gt_half_iff ar d).1 hc)), if_neg h1]
    by_cases h2 : 2 * d < -(ar + 1)
    · rw [if_pos ((rat_lt_neg_half_iff ar d).2 h2), if_pos h2]
    · rw [if_neg (fun hc => h2 ((rat_lt_neg_half_iff ar d).1 hc)), if_neg h2]

lemma Encoder.init_coherent (ar : ℤ) : (Encoder.init ar).Coherent :=
  ⟨rfl, rfl, rfl⟩

lemma Encoder.update_delta_eq (e : Encoder) (c : ℤ) (h : e.Coherent) :
    (e.update c).delta = wrapCorr e.auto_reload (c - e.old_count) := by
  obtain ⟨hl, hn, hA⟩ := h
  simp only [Encoder.update, wrapCorr, hl, hn, hA]

lemma Encoder.update_coherent (e : Encoder) (c : ℤ) (h : e.Coherent) :
    (e.update c).Coherent := h

lemma Encoder.update_position_eq (e : Encoder) (c : ℤ) (h : e.Coherent) :
    (e.update c).position = e.position + wrapCorr e.auto_reload (c - e.old_count) := by
  obtain ⟨hl, hn, hA⟩ := h
  simp only [Encoder.update, wrapCorr, hl, hn, hA]

lemma Encoder.update_old_count (e : Encoder) (c : ℤ) :
    (e.update c).old_count = c := rfl

lemma Encoder.update_auto_reload (e : Encoder) (c : ℤ) :
    (e.update c).auto_reload = e.auto_reload := rfl

/-- Position after a run of updates is the prior position plus the sum of
the wraparound-corrected deltas, for any coherent encoder. -/
lemma Encoder.updates_position (cs : List ℤ) :
    ∀ e : Encoder, e.Coherent →
      (e.updates cs).position =
        e.position + (corrDeltas e.auto_reload e.old_count cs).sum := by
  induction cs with
  | nil => intro e _; simp [Encoder.updates, corrDeltas]
  | cons c cs ih =>
    intro e he
    have hstep := ih (e.update c) (e.update_coherent c he)
    simp only [Encoder.updates, List.foldl_cons] at hstep ⊢
    rw [hstep, corrDeltas]
    rw [Encoder.update_position_eq e c he, Encoder.update_old_count,
      Encoder.update_auto_reload]
    simp [List.sum_cons]
    ring

/-- Claim C1: after `Encoder.zero()` followed by N `Encoder.update()` calls,
the stored position equals exactly the sum of the N wraparound-corrected
deltas, for every counter sequence and every auto-reload value (odd or
even); within a single update, a jump of exactly `limit + 1` (when
`limit = (ar+1)/2` is an integer, i.e. `2*l = ar+1`) is corrected by
subtracting `ar + 1`, a jump of exactly `limit` is left uncorrected, and a
jump strictly below `-limit` is corrected by adding `ar + 1`. -/
theorem encoder_position_is_sum_of_corrected_deltas (ar : ℤ) (har : 0 ≤ ar) :
    (∀ cs : List ℤ,
      (((Encoder.init ar).zero).updates cs).position = (corrDeltas ar 0 cs).sum) ∧
    (∀ l : ℤ, 2 * l = ar + 1 →
      wrapCorr ar (l + 1) = (l + 1) - (ar + 1) ∧ wrapCorr ar l = l) ∧
    (∀ d : ℤ, (d : ℚ) < -(((ar : ℚ) + 1) / 2) → wrapCorr ar d = d + (ar + 1)) := by
  refine ⟨?_, ?_, ?_⟩
  · intro cs
    have hz : ((Encoder.init ar).zero).Coherent := Encoder.init_coherent ar
    have := Encoder.updates_position cs ((Encoder.init ar).zero) hz
    simpa [Encoder.zero, Encoder.init] using this
  · intro l hl
    constructor
    · rw [wrapCorr_eq_int]; split_ifs <;> omega
    · rw [wrapCorr_eq_int]; split_ifs <;> omega
  · intro d hd
    have hd' : 2 * d < -(ar + 1) := by
      have := (rat_lt_neg_half_iff ar d).1 (by
        rw [show (-1 * ((ar : ℚ) + 1) / 2) = -(((ar : ℚ) + 1) / 2) by ring]
        exact hd)
      exact this
    rw [wrapCorr_eq_int]
    split_ifs <;> omega

/-- Witness for C1 at `ar = 5`: the position-sum identity on the concrete
reading sequence `[4, 1]`, and the boundary behaviour at `limit = 3`. -/
theorem encoder_position_is_sum_of_corrected_deltas_witness :
    (((Encoder.init 5).zero).updates [4, 1]).position = (corrDeltas 5 0 [4, 1]).sum ∧
    wrapCorr 5 (3 + 1) = (3 + 1) - (5 + 1) ∧ wrapCorr 5 3 = 3 :=
  ⟨(encoder_position_is_sum_of_corrected_deltas 5 (by decide)).1 [4, 1],
   ((encoder_position_is_sum_of_corrected_deltas 5 (by decide)).2.1 3 (by decide)).1,
   ((encoder_position_is_sum_of_corrected_deltas 5 (by decide)).2.1 3 (by decide)).2⟩

/-! Further integer characterisations for the interval bounds of C2. -/
lemma rat_le_half_iff (a d : ℤ) :
    ((d : ℚ) ≤ ((a : ℚ) + 1) / 2) ↔ 2 * d ≤ a + 1 := by
  rw [le_div_iff₀ (by norm_num : (0 : ℚ) < 2)]
  constructor
  · intro h
    have : ((2 * d : ℤ) : ℚ) ≤ ((a + 1 : ℤ) : ℚ) := by push_cast; linarith
    exact_mod_cast this
  · intro h
    have : ((2 * d : ℤ) : ℚ) ≤ ((a + 1 : ℤ) : ℚ) := by exact_mod_cast h
    push_cast at this
    linarith

lemma rat_neg_half_le_iff (a d : ℤ) :
    (-(((a : ℚ) + 1) / 2) ≤ (d : ℚ)) ↔ -(a + 1) ≤ 2 * d := by
  rw [show -(((a : ℚ) + 1) / 2) = (-((a : ℚ) + 1)) / 2 by ring,
    div_le_iff₀ (by norm_num : (0 : ℚ) < 2)]
  constructor
  · intro h
    have : ((-(a + 1) : ℤ) : ℚ) ≤ ((2 * d : ℤ) : ℚ) := by push_cast; linarith
    exact_mod_cast this
  · intro h
    have : ((-(a + 1) : ℤ) : ℚ) ≤ ((2 * d : ℤ) : ℚ) := by exact_mod_cast h
    push_cast at this
    linarith

/-- The delta bound `-(ar+1) ≤ 2·delta ≤ ar+1` (together with
`old_count ∈ [0, ar]`) is preserved by any run of updates whose raw counts
lie in `[0, ar]`. -/
lemma Encoder.updates_delta_bounds (ar : ℤ) (har : 0 ≤ ar) (cs : List ℤ)
    (hcs : ∀ c ∈ cs, 0 ≤ c ∧ c ≤ ar) :
    ∀ e : Encoder, e.Coherent → e.auto_reload = ar →
      0 ≤ e.old_count → e.old_count ≤ ar →
      -(ar + 1) ≤ 2 * e.delta → 2 * e.delta ≤ ar + 1 →
      -(ar + 1) ≤ 2 * (e.updates cs).delta ∧ 2 * (e.updates cs).delta ≤ ar + 1 := by
  induction cs with
  | nil => intro e _ _ _ _ h1 h2; exact ⟨h1, h2⟩
  | cons c cs ih =>
    intro e he har' ho1 ho2 _ _
    have hc := hcs c (List.mem_cons_self c cs)
    have hcs' : ∀ x ∈ cs, 0 ≤ x ∧ x ≤ ar := fun x hx => hcs x (List.mem_cons_of_mem c hx)
    have hdelta : (e.update c).delta = wrapCorr ar (c - e.old_count) := by
      rw [Encoder.update_delta_eq e c he, har']
    have hbound : -(ar + 1) ≤ 2 * (e.update c).delta ∧
        2 * (e.update c).delta ≤ ar + 1 := by
      rw [hdelta, wrapCorr_eq_int]
      split_ifs <;> omega
    have := ih hcs' (e.update c) (e.update_coherent c he)
      (by rw [Encoder.update_auto_reload]; exact har')
      (by rw [Encoder.update_old_count]; omega)
      (by rw [Encoder.update_old_count]; omega)
      hbound.1 hbound.2
    simpa [Encoder.updates, List.foldl_cons] using this

/-- Counterexample to claim C2 as stated: with `auto_reload = 4` the raw
count `3` (within `[0, 4]`) read right after construction gives
`delta = 3 - 5 = -2`, which lies outside the claimed half-open interval
`(-auto_reload/2, +auto_reload/2] = (-2, 2]`. -/
theorem encoder_delta_halfopen_counterexample :
    ((Encoder.init 4).update 3).delta = -2 ∧
    ¬ (-((4 : ℚ) / 2) < ((((Encoder.init 4).update 3).delta : ℤ) : ℚ) ∧
       ((((Encoder.init 4).update 3).delta : ℤ) : ℚ) ≤ (4 : ℚ) / 2) := by
  constructor
  · norm_num [Encoder.init, Encoder.update]
  · intro ⟨h1, _⟩
    have hd : ((Encoder.init 4).update 3).delta = -2 := by
      norm_num [Encoder.init, Encoder.update]
    rw [hd] at h1
    norm_num at h1

/-- Claim C2, amended: for every reachable encoder state — constructor or
`zero()` start, then any sequence of raw counts in `[0, auto_reload]` — the
stored `delta` lies in the closed interval
`[-(auto_reload+1)/2, +(auto_reload+1)/2]` (not the half-open interval
`(-auto_reload/2, +auto_reload/2]` of the claim). -/
theorem encoder_delta_bounds_amended (ar : ℤ) (har : 0 ≤ ar) (e₀ : Encoder)
    (h₀ : e₀ = Encoder.init ar ∨
      ∃ e : Encoder, e.Coherent ∧ e.auto_reload = ar ∧ e₀ = e.zero)
    (cs : List ℤ) (hcs : ∀ c ∈ cs, 0 ≤ c ∧ c ≤ ar) :
    -(((ar : ℚ) + 1) / 2) ≤ (((e₀.updates cs).delta : ℤ) : ℚ) ∧
    (((e₀.updates cs).delta : ℤ) : ℚ) ≤ ((ar : ℚ) + 1) / 2 := by
  have hfields : e₀.Coherent ∧ e₀.auto_reload = ar ∧ e₀.old_count = 0 ∧ e₀.delta = 0 := by
    rcases h₀ with h | ⟨e, he, hear, hz⟩
    · subst h; exact ⟨Encoder.init_coherent ar, rfl, rfl, rfl⟩
    · subst hz
      exact ⟨he, hear, rfl, rfl⟩
  obtain ⟨hco, hear, hold, hdel⟩ := hfields
  have := Encoder.updates_delta_bounds ar har cs hcs e₀ hco hear
    (by omega) (by omega) (by omega) (by omega)
  exact ⟨(rat_neg_half_le_iff ar _).2 this.1, (rat_le_half_iff ar _).2 this.2⟩

/-- Witness for the amended C2 at `ar = 4`, constructor start, readings
`[3]`. -/
theorem encoder_delta_bounds_amended_witness :
    -(((4 : ℚ) + 1) / 2) ≤ ((((Encoder.init 4).updates [3]).delta : ℤ) : ℚ) ∧
    ((((Encoder.init 4).updates [3]).delta : ℤ) : ℚ) ≤ ((4 : ℚ) + 1) / 2 :=
  encoder_delta_bounds_amended 4 (by decide) (Encoder.init 4) (Or.inl rfl) [3]
    (by decide)

lemma ClosedLoop.updates_Kp (c : ClosedLoop) (n : ℕ) : (c.updates n).Kp = c.Kp := by
  induction n with
  | zero => rfl
  | succ n ih => simp [ClosedLoop.updates, ClosedLoop.update, ih]

lemma ClosedLoop.updates_Ki (c : ClosedLoop) (n : ℕ) : (c.updates n).Ki = c.Ki := by
  induction n with
  | zero => rfl
  | succ n ih => simp [ClosedLoop.updates, ClosedLoop.update, ih]

lemma ClosedLoop.updates_ref (c : ClosedLoop) (n : ℕ) : (c.updates n).ref = c.ref := by
  induction n with
  | zero => rfl
  | succ n ih => simp [ClosedLoop.updates, ClosedLoop.update, ih]

lemma ClosedLoop.updates_meas (c : ClosedLoop) (n : ℕ) : (c.updates n).meas = c.meas := by
  induction n with
  | zero => rfl
  | succ n ih => simp [ClosedLoop.updates, ClosedLoop.update, ih]

lemma ClosedLoop.updates_period (c : ClosedLoop) (n : ℕ) :
    (c.updates n).period = c.period := by
  induction n with
  | zero => rfl
  | succ n ih => simp [ClosedLoop.updates, ClosedLoop.update, ih]

/-- With zero integral gain the accumulated integral never moves. -/
lemma ClosedLoop.updates_integral_of_Ki_zero (c : ClosedLoop) (hKi : c.Ki = 0)
    (hint : c.integral = 0) (n : ℕ) : (c.updates n).integral = 0 := by
  induction n with
  | zero => exact hint
  | succ n ih =>
    simp [ClosedLoop.updates, ClosedLoop.update, ih, ClosedLoop.updates_Ki, hKi]

/-- With zero proportional gain the integral is an exact arithmetic series. -/
lemma ClosedLoop.updates_integral_linear (c : ClosedLoop) (n : ℕ) :
    (c.updates n).integral =
      c.integral + c.Ki * (c.ref - c.meas) * c.period * n := by
  induction n with
  | zero => simp [ClosedLoop.updates]
  | succ n ih =>
    simp only [ClosedLoop.updates, ClosedLoop.update]
    rw [ClosedLoop.updates_Ki, ClosedLoop.updates_ref, ClosedLoop.updates_meas,
      ClosedLoop.updates_period, ih]
    push_cast
    ring

/-- Claim C8: a `ClosedLoop` constructed with `Ki = 0` returns exactly
`Kp * (ref - meas)` on every single call to `update()` (after any number of
prior calls); a `ClosedLoop` constructed with `Kp = 0` has, after `n`
calls, `integral = Ki * (ref - meas) * (period/1000) * n`, with
`period/1000` being the constructor period converted to seconds. -/
theorem closedloop_proportional_and_integral_exact
    (period Kp Ki ref meas : ℚ) (n : ℕ) :
    (((ClosedLoop.init period Kp 0 ref meas).updates n).update).1 =
      Kp * (ref - meas) ∧
    ((ClosedLoop.init period 0 Ki ref meas).updates n).integral =
      Ki * (ref - meas) * (period / 1000) * n := by
  constructor
  · have hint : ((ClosedLoop.init period Kp 0 ref meas).updates n).integral = 0 :=
      ClosedLoop.updates_integral_of_Ki_zero _ rfl rfl n
    simp only [ClosedLoop.update]
    rw [ClosedLoop.updates_Kp, ClosedLoop.updates_Ki, ClosedLoop.updates_ref,
      ClosedLoop.updates_meas, ClosedLoop.updates_period, hint]
    simp [ClosedLoop.init]
  · have := ClosedLoop.updates_integral_linear (ClosedLoop.init period 0 Ki ref meas) n
    simpa [ClosedLoop.init] using this

lemma readfrom_mem_length (mem : ℕ → ℕ) (reg n : ℕ) :
    (readfrom_mem mem reg n).length = n := by
  simp [readfrom_mem]

lemma readfrom_mem_getD (mem : ℕ → ℕ) (reg n i d : ℕ) (h : i < n) :
    (readfrom_mem mem reg n).getD i d = mem (reg + i) := by
  simp [readfrom_mem, List.getD_eq_getElem?_getD, List.getElem?_map,
    List.getElem?_range, h]

/-- Claim C9: the calibration-coefficient transfer is a byte-level round
trip.  For every device register file whose 22-byte block at `0x55` holds
bytes, `write_calibration_coefficients(read_calibration_coefficients())`
writes back exactly the bytes that were read: the register file is
unchanged at every address, so the subsequent 22-byte readback is identical
(`pack "<22B"` is a left inverse of `unpack "<22B"`). -/
theorem calibration_coefficients_roundtrip (mem : ℕ → ℕ)
    (hbytes : ∀ i < 22, mem (0x55 + i) < 256) :
    ∃ cs : List ℕ,
      BNO055.read_calibration_coefficients mem = .ok cs ∧
      ∃ mem' : ℕ → ℕ,
        BNO055.write_calibration_coefficients mem cs = .ok mem' ∧
        (∀ a, mem' a = mem a) ∧
        BNO055.read_calibration_coefficients mem' = .ok cs := by
  have hread : BNO055.read_calibration_coefficients mem = .ok (readfrom_mem mem 0x55 22) := by
    unfold BNO055.read_calibration_coefficients struct_unpack_22B
    rw [if_pos (readfrom_mem_length mem 0x55 22)]
  have hmem : writeto_mem mem 0x55 (readfrom_mem mem 0x55 22) = mem := by
    funext a
    unfold writeto_mem
    by_cases hrange : 0x55 ≤ a ∧ a < 0x55 + (readfrom_mem mem 0x55 22).length
    · rw [if_pos hrange]
      rw [readfrom_mem_length] at hrange
      rw [readfrom_mem_getD mem 0x55 22 (a - 0x55) (mem a) (by omega)]
      congr 1
      omega
    · rw [if_neg hrange]
  refine ⟨readfrom_mem mem 0x55 22, hread, writeto_mem mem 0x55 (readfrom_mem mem 0x55 22),
    ?_, fun a => by rw [hmem], by rw [hmem]; exact hread⟩
  unfold BNO055.write_calibration_coefficients struct_pack_22B
  have hall : ∀ v ∈ readfrom_mem mem 0x55 22, v < 256 := by
    intro v hv
    simp only [readfrom_mem, List.mem_map, List.mem_range] at hv
    obtain ⟨i, hi, rfl⟩ := hv
    exact hbytes i hi
  rw [if_pos ⟨readfrom_mem_length mem 0x55 22, hall⟩]
  rfl

/-- Witness for C9: the all-zero register file. -/
theorem calibration_coefficients_roundtrip_witness :
    ∃ cs : List ℕ,
      BNO055.read_calibration_coefficients (fun _ => 0) = .ok cs ∧
      ∃ mem' : ℕ → ℕ,
        BNO055.write_calibration_coefficients (fun _ => 0) cs = .ok mem' ∧
        (∀ a, mem' a = (fun _ => 0) a) ∧
        BNO055.read_calibration_coefficients mem' = .ok cs :=
  calibration_coefficients_roundtrip (fun _ => 0) (by intro i _; norm_num)

/-- Claim C10: for every placement code in `0‑7`, `remap_axes` writes
exactly the two documented constant bytes — the remap byte of the
`AXIS_REMAP_P0..P7` table to register `0x41` and the sign byte of the
`AXIS_REMAP_SIGN_P0..P7` table to register `0x42`, in that order — and for
every other placement it raises `ValueError("Invalid placement value")`
and performs no bus write. -/
theorem remap_axes_writes_table (p : ℤ) :
    (0 ≤ p → p ≤ 7 →
      BNO055.remap_axes p = .ok [(0x41, axisRemapByte p), (0x42, axisSignByte p)]) ∧
    (p < 0 ∨ 7 < p →
      BNO055.remap_axes p = .error "Invalid placement value") := by
  constructor
  · intro h0 h7
    interval_cases p <;> rfl
  · intro hout
    have h0 : p ≠ 0 := by omega
    have h1 : p ≠ 1 := by omega
    have h2 : p ≠ 2 := by omega
    have h3 : p ≠ 3 := by omega
    have h4 : p ≠ 4 := by omega
    have h5 : p ≠ 5 := by omega
    have h6 : p ≠ 6 := by omega
    have h7 : p ≠ 7 := by omega
    simp [BNO055.remap_axes, h0, h1, h2, h3, h4, h5, h6, h7, Bind.bind, Except.bind]

/-- Witness for C10 at placements `3` (valid) and `9` (rejected). -/
theorem remap_axes_writes_table_witness :
    BNO055.remap_axes 3 = .ok [(0x41, axisRemapByte 3), (0x42, axisSignByte 3)] ∧
    BNO055.remap_axes 9 = .error "Invalid placement value" :=
  ⟨(remap_axes_writes_table 3).1 (by decide) (by decide),
   (remap_axes_writes_table 9).2 (Or.inr (by decide))⟩

/-- Counterexample to claim C3 as stated: with the outermost-left sensor
S11 and the next-left sensor S9 reading above the black threshold (3000 >
2000) and the other four below the white threshold (1000 < 2000), the
cycle matches the RIGHT 2 rule and enqueues maneuver code 8 to both
queues — not code 6 as claimed. -/
theorem classifier_outer_left_pair_counterexample :
    ∃ r : SenResult,
      Sensor.init.sen_step 3000 3000 1000 1000 1000 1000 ⟨[], 1000⟩ ⟨[], 1000⟩ = .ok r ∧
      r.ql.items = [8] ∧ r.qr.items = [8] ∧ (8 : ℕ) ≠ 6 :=
  ⟨_, rfl, rfl, rfl, by decide⟩

/-- Claim C3, amended: in state 0, the pattern "S11 and S9 above the black
threshold, the other four below the white threshold" enqueues maneuver
code 8 (the RIGHT 2 rule) — not 6 — to both queues exactly once; and the
all-low pattern enqueues code 3 (straight) to both queues exactly once via
the default fallback branch. -/
theorem classifier_outer_left_pair_amended (s11 s9 s7 s5 s3 s1 : ℤ) (ql qr : Queue) :
    (2000 < s11 → 2000 < s9 → s7 < 2000 → s5 < 2000 → s3 < 2000 → s1 < 2000 →
      ∃ r : SenResult,
        Sensor.init.sen_step s11 s9 s7 s5 s3 s1 ql qr = .ok r ∧
        r.ql.items = ql.items ++ [8] ∧ r.qr.items = qr.items ++ [8] ∧
        r.sensor.state = 0) ∧
    (s11 < 2000 → s9 < 2000 → s7 < 2000 → s5 < 2000 → s3 < 2000 → s1 < 2000 →
      ∃ r : SenResult,
        Sensor.init.sen_step s11 s9 s7 s5 s3 s1 ql qr = .ok r ∧
        r.ql.items = ql.items ++ [3] ∧ r.qr.items = qr.items ++ [3] ∧
        r.sensor.state = 0) := by
  constructor
  · intro h11 h9 h7 h5 h3 h1
    unfold Sensor.sen_step Sensor.init
    rw [if_pos rfl]
    rw [if_neg (by dsimp only; omega), if_neg (by dsimp only; omega),
      if_neg (by dsimp only; omega), if_neg (by dsimp only; omega),
      if_neg (by dsimp only; omega), if_neg (by dsimp only; omega),
      if_neg (by dsimp only; omega), if_pos (by dsimp only; omega)]
    exact ⟨_, rfl, rfl, rfl, rfl⟩
  · intro h11 h9 h7 h5 h3 h1
    unfold Sensor.sen_step Sensor.init
    rw [if_pos rfl]
    rw [if_neg (by dsimp only; omega), if_neg (by dsimp only; omega),
      if_neg (by dsimp only; omega), if_neg (by dsimp only; omega),
      if_neg (by dsimp only; omega), if_neg (by dsimp only; omega),
      if_neg (by dsimp only; omega), if_neg (by dsimp only; omega),
      if_neg (by dsimp only; omega), if_neg (by dsimp only; omega),
      if_neg (by dsimp only; omega)]
    exact ⟨_, rfl, rfl, rfl, rfl⟩

/-- Witness for the amended C3 at concrete readings (high = 3000,
low = 1000) and empty queues. -/
theorem classifier_outer_left_pair_amended_witness :
    (∃ r : SenResult,
      Sensor.init.sen_step 3000 3000 1000 1000 1000 1000 ⟨[], 1000⟩ ⟨[], 1000⟩ = .ok r ∧
      r.ql.items = (⟨[], 1000⟩ : Queue).items ++ [8] ∧
      r.qr.items = (⟨[], 1000⟩ : Queue).items ++ [8] ∧ r.sensor.state = 0) ∧
    (∃ r : SenResult,
      Sensor.init.sen_step 1000 1000 1000 1000 1000 1000 ⟨[], 1000⟩ ⟨[], 1000⟩ = .ok r ∧
      r.ql.items = (⟨[], 1000⟩ : Queue).items ++ [3] ∧
      r.qr.items = (⟨[], 1000⟩ : Queue).items ++ [3] ∧ r.sensor.state = 0) :=
  ⟨(classifier_outer_left_pair_amended 3000 3000 1000 1000 1000 1000 ⟨[], 1000⟩ ⟨[], 1000⟩).1
      (by decide) (by decide) (by decide) (by decide) (by decide) (by decide),
   (classifier_outer_left_pair_amended 1000 1000 1000 1000 1000 1000 ⟨[], 1000⟩ ⟨[], 1000⟩).2
      (by decide) (by decide) (by decide) (by decide) (by decide) (by decide)⟩

/-- Counterexample to claim C5 as stated: on a LEFT 1 cycle (S3, S5 high)
with the right queue at its capacity of 1000, the diagnostic is printed but
the enqueue is NOT skipped — `put` is attempted on the full queue and its
contents grow to 1001 entries. -/
theorem queuefull_put_not_skipped_counterexample :
    ∃ r : SenResult,
      Sensor.init.sen_step 1000 1000 1000 3000 3000 1000
        ⟨[], 1000⟩ ⟨List.replicate 1000 0, 1000⟩ = .ok r ∧
      r.prints = ["RIGHT QUEUE FULL"] ∧
      r.qr.items.length = 1001 := by
  refine ⟨_, rfl, ?_, ?_⟩
  · have hfull : (⟨List.replicate 1000 0, 1000⟩ : Queue).full = true := by
      simp only [Queue.full, List.length_replicate]
      rfl
    simp only [Sensor.sen_step, Sensor.init]
    norm_num [hfull, Queue.put]
  · simp only [Sensor.sen_step, Sensor.init]
    norm_num [Queue.put]

/-- Claim C5, amended: on a LEFT 1 classifier cycle whose checked queue
(the right queue) is at capacity, the producer prints the diagnostic
"RIGHT QUEUE FULL" but does NOT skip the enqueue: the code is still put to
both queues, including the full one; and on a default-fallback cycle no
fullness check is made at all and the enqueue of code 3 is attempted
unconditionally on both queues. -/
theorem queuefull_reported_but_put_attempted (s11 s9 s7 s5 s3 s1 : ℤ) (ql qr : Queue) :
    (2000 < s3 → 2000 < s5 → qr.full = true →
      ∃ r : SenResult,
        Sensor.init.sen_step s11 s9 s7 s5 s3 s1 ql qr = .ok r ∧
        r.prints = ["RIGHT QUEUE FULL"] ∧
        r.ql = ql.put 1 ∧ r.qr = qr.put 1) ∧
    (s11 < 2000 → s9 < 2000 → s7 < 2000 → s5 < 2000 → s3 < 2000 → s1 < 2000 →
      ∃ r : SenResult,
        Sensor.init.sen_step s11 s9 s7 s5 s3 s1 ql qr = .ok r ∧
        r.prints = [] ∧ r.ql = ql.put 3 ∧ r.qr = qr.put 3) := by
  constructor
  · intro h3 h5 hfull
    unfold Sensor.sen_step Sensor.init
    rw [if_pos rfl]
    rw [if_neg (by dsimp only; omega), if_pos (by dsimp only; omega)]
    exact ⟨_, rfl, by rw [hfull]; rfl, rfl, rfl⟩
  · intro h11 h9 h7 h5 h3 h1
    unfold Sensor.sen_step Sensor.init
    rw [if_pos rfl]
    rw [if_neg (by dsimp only; omega), if_neg (by dsimp only; omega),
      if_neg (by dsimp only; omega), if_neg (by dsimp only; omega),
      if_neg (by dsimp only; omega), if_neg (by dsimp only; omega),
      if_neg (by dsimp only; omega), if_neg (by dsimp only; omega),
      if_neg (by dsimp only; omega), if_neg (by dsimp only; omega),
      if_neg (by dsimp only; omega)]
    exact ⟨_, rfl, rfl, rfl, rfl⟩

/-- Witness for the amended C5: LEFT 1 readings against a right queue
holding 1000 entries, and all-low readings. -/
theorem queuefull_reported_but_put_attempted_witness :
    (∃ r : SenResult,
      Sensor.init.sen_step 1000 1000 1000 3000 3000 1000
        ⟨[], 1000⟩ ⟨List.replicate 1000 0, 1000⟩ = .ok r ∧
      r.prints = ["RIGHT QUEUE FULL"] ∧
      r.ql = Queue.put ⟨[], 1000⟩ 1 ∧
      r.qr = Queue.put ⟨List.replicate 1000 0, 1000⟩ 1) ∧
    (∃ r : SenResult,
      Sensor.init.sen_step 1000 1000 1000 1000 1000 1000
        ⟨[], 1000⟩ ⟨List.replicate 1000 0, 1000⟩ = .ok r ∧
      r.prints = [] ∧
      r.ql = Queue.put ⟨[], 1000⟩ 3 ∧
      r.qr = Queue.put ⟨List.replicate 1000 0, 1000⟩ 3) :=
  ⟨(queuefull_reported_but_put_attempted 1000 1000 1000 3000 3000 1000
      ⟨[], 1000⟩ ⟨List.replicate 1000 0, 1000⟩).1 (by decide) (by decide)
      (by simp only [Queue.full, List.length_replicate]; rfl),
   (queuefull_reported_but_put_attempted 1000 1000 1000 1000 1000 1000
      ⟨[], 1000⟩ ⟨List.replicate 1000 0, 1000⟩).2 (by decide) (by decide)
      (by decide) (by decide) (by decide) (by decide)⟩

lemma Motor.preamble_start (m : Motor) (c t : ℤ) : (m.preamble c t).start = m.start := rfl

lemma Motor.preamble_end (m : Motor) (c t : ℤ) : (m.preamble c t).end_ = t := rfl

lemma Motor.pv_state (m : Motor) (c t : ℤ) :
    ((m.preamble c t).vmeas_update).state = m.state := rfl

lemma Motor.pv_set (m : Motor) (c t : ℤ) :
    ((m.preamble c t).vmeas_update).set = m.set := rfl

lemma Motor.pv_start (m : Motor) (c t : ℤ) :
    ((m.preamble c t).vmeas_update).start = t := rfl

lemma Motor.mot_step_ok (m : Motor) (q : Queue) (c c2 t : ℤ) (ht : t ≠ m.start) :
    m.mot_step q c c2 t = ((m.preamble c t).vmeas_update).dispatch q c2 := by
  unfold Motor.mot_step
  rw [if_neg]
  rw [Motor.preamble_end, Motor.preamble_start]
  exact sub_ne_zero.mpr ht

/-- Claim C7: each `mot_gen` cycle divides the encoder delta by the elapsed
milliseconds `t = self.end - self.start` with no zero guard.  When a cycle
observes the same `ticks_ms` value at which the previous cycle ended
(`t = m.start`), the cycle raises `ZeroDivisionError`: the result is the
error value carrying only the preamble state — the encoder was updated and
`self.end` set, but no duty command was issued and the machine state is
unchanged. -/
theorem motor_step_zero_elapsed_raises (m : Motor) (q : Queue) (c c2 : ℤ) :
    m.mot_step q c c2 m.start = .error (.zeroDivision (m.preamble c m.start)) ∧
    (m.preamble c m.start).state = m.state := by
  constructor
  · unfold Motor.mot_step
    rw [if_pos]
    rw [Motor.preamble_end, Motor.preamble_start, sub_self]
  · rfl

lemma Motor.turnCmd_R (M : Motor) (Q : Queue) (rCmd lCmd : ℤ) (h : M.set = "R") :
    M.turnCmd Q rCmd lCmd = .ok ⟨{ M with state := 0 }, Q, [rCmd], 2, []⟩ := by
  unfold Motor.turnCmd
  rw [if_pos h]

lemma Motor.turnCmd_L (M : Motor) (Q : Queue) (rCmd lCmd : ℤ) (h : M.set = "L") :
    M.turnCmd Q rCmd lCmd = .ok ⟨{ M with state := 0 }, Q, [lCmd], 2, []⟩ := by
  unfold Motor.turnCmd
  rw [if_neg (show ¬ M.set = "R" by rw [h]; decide), if_pos h]

/-- Each graded-turn body returns normally, issues at most one duty
command — exactly one for an "R" or "L" wheel — and goes back to state 0. -/
lemma Motor.turnCmd_ok (M : Motor) (Q : Queue) (rCmd lCmd : ℤ) :
    ∃ r : MotResult, M.turnCmd Q rCmd lCmd = .ok r ∧ r.encReads = 2 ∧
      r.cmds.length ≤ 1 ∧ ((M.set = "R" ∨ M.set = "L") → r.cmds.length = 1) ∧
      r.motor.state = 0 := by
  by_cases h1 : M.set = "R"
  · exact ⟨_, Motor.turnCmd_R M Q rCmd lCmd h1, rfl, by norm_num, fun _ => rfl, rfl⟩
  · by_cases h2 : M.set = "L"
    · exact ⟨_, Motor.turnCmd_L M Q rCmd lCmd h2, rfl, by norm_num, fun _ => rfl, rfl⟩
    · exact ⟨⟨{ M with state := 0 }, Q, [], 2, []⟩,
        by unfold Motor.turnCmd; rw [if_neg h1, if_neg h2],
        rfl, by norm_num, fun hs => absurd hs (not_or.mpr ⟨h1, h2⟩), rfl⟩

/-- Every dispatch from a state in 0–13 returns normally, touches the
odometer, and issues at most one duty command; states 1–12 with a wheel
tag of "R" or "L" issue exactly one. -/
lemma Motor.dispatch_total (m : Motor) (q : Queue) (c2 : ℤ)
    (h0 : 0 ≤ m.state) (h13 : m.state ≤ 13) :
    ∃ r : MotResult, m.dispatch q c2 = .ok r ∧ 1 ≤ r.encReads ∧ r.cmds.length ≤ 1 ∧
      ((m.set = "R" ∨ m.set = "L") → 1 ≤ m.state → m.state ≤ 12 → r.cmds.length = 1) := by
  have hT : ∀ rCmd lCmd : ℤ, m.dispatch q c2 = m.turnCmd q rCmd lCmd →
      ∃ r : MotResult, m.dispatch q c2 = .ok r ∧ 1 ≤ r.encReads ∧ r.cmds.length ≤ 1 ∧
        ((m.set = "R" ∨ m.set = "L") → 1 ≤ m.state → m.state ≤ 12 → r.cmds.length = 1) := by
    intro rCmd lCmd he
    obtain ⟨r, hr, hreads, hlen, hone, _⟩ := Motor.turnCmd_ok m q rCmd lCmd
    exact ⟨r, he.trans hr, by omega, hlen, fun hs _ _ => hone hs⟩
  have hc : m.state = 0 ∨ m.state = 1 ∨ m.state = 2 ∨ m.state = 3 ∨ m.state = 4 ∨
      m.state = 5 ∨ m.state = 6 ∨ m.state = 7 ∨ m.state = 8 ∨ m.state = 9 ∨
      m.state = 10 ∨ m.state = 11 ∨ m.state = 12 ∨ m.state = 13 := by omega
  rcases hc with h|h|h|h|h|h|h|h|h|h|h|h|h|h
  · -- state 0
    by_cases hR : m.set = "R"
    · by_cases ha : q.any = true
      · exact ⟨_, by unfold Motor.dispatch; rw [if_pos h, if_pos hR, if_pos ha],
          by norm_num, by norm_num, fun _ h1 _ => absurd h1 (by omega)⟩
      · exact ⟨_, by unfold Motor.dispatch; rw [if_pos h, if_pos hR, if_neg ha],
          by norm_num, by norm_num, fun _ h1 _ => absurd h1 (by omega)⟩
    · by_cases hL : m.set = "L"
      · by_cases ha : q.any = true
        · exact ⟨_, by unfold Motor.dispatch; rw [if_pos h, if_neg hR, if_pos hL, if_pos ha],
            by norm_num, by norm_num, fun _ h1 _ => absurd h1 (by omega)⟩
        · exact ⟨_, by unfold Motor.dispatch; rw [if_pos h, if_neg hR, if_pos hL, if_neg ha],
            by norm_num, by norm_num, fun _ h1 _ => absurd h1 (by omega)⟩
      · exact ⟨_, by unfold Motor.dispatch; rw [if_pos h, if_neg hR, if_neg hL],
          by norm_num, by norm_num, fun _ h1 _ => absurd h1 (by omega)⟩
  · exact hT (m.v_ref + m.adjust1) (m.v_ref - m.adjust1 + 0)
      (by unfold Motor.dispatch; rw [h]; norm_num)
  · exact hT (m.v_ref - m.adjust1) (m.v_ref + m.adjust1 + 0)
      (by unfold Motor.dispatch; rw [h]; norm_num)
  · -- state 3
    refine ⟨⟨{ m with state := 0 }, q, [m.v_ref], 2, []⟩, ?_, by norm_num, by norm_num,
      fun _ _ _ => by norm_num⟩
    unfold Motor.dispatch
    rw [h]
    norm_num
  · exact hT (m.v_ref + m.adjust2) (m.v_ref - m.adjust2 + 0)
      (by unfold Motor.dispatch; rw [h]; norm_num)
  · exact hT (m.v_ref + m.adjust3) (m.v_ref - m.adjust3 + 0)
      (by unfold Motor.dispatch; rw [h]; norm_num)
  · exact hT (m.v_ref + m.adjust4) (m.v_ref - m.adjust4 + 0)
      (by unfold Motor.dispatch; rw [h]; norm_num)
  · exact hT (m.v_ref + m.adjust4) (m.v_ref - m.adjust4 + 0)
      (by unfold Motor.dispatch; rw [h]; norm_num)
  · exact hT (m.v_ref - m.adjust2 + m.offset) (m.v_ref + m.adjust2 + 0)
      (by unfold Motor.dispatch; rw [h]; norm_num)
  · exact hT (m.v_ref - m.adjust3 + m.offset) (m.v_ref + m.adjust3 + 0)
      (by unfold Motor.dispatch; rw [h]; norm_num)
  · exact hT (m.v_ref - m.adjust4 + m.offset) (m.v_ref + m.adjust4 + 0)
      (by unfold Motor.dispatch; rw [h]; norm_num)
  · exact hT (m.v_ref - m.adjust5 + m.offset) (m.v_ref + m.adjust5 + 0)
      (by unfold Motor.dispatch; rw [h]; norm_num)
  · -- state 12
    refine ⟨⟨{ m with state := 0 }, q, [0], 2, []⟩, ?_, by norm_num, by norm_num,
      fun _ _ _ => by norm_num⟩
    unfold Motor.dispatch
    rw [h]
    norm_num
  · -- state 13
    by_cases hf : m.back = 0 ∧ m.turn = 0 ∧ m.forw = 0
    · refine ⟨⟨{ m with enc := (m.enc.zero).update c2, back := 1 }, q, [], 4, ["FIRST"]⟩,
        ?_, by norm_num, by norm_num, fun _ _ h2 => absurd h2 (by omega)⟩
      unfold Motor.dispatch
      rw [h, if_pos hf]
      norm_num
    · by_cases hb : m.back = 1
      · by_cases hpos : |((m.enc.zero).update c2).get_position| < 1440
        · refine ⟨⟨{ m with enc := (m.enc.zero).update c2 }, q, [-3], 6,
              ["SECOND", toString |((m.enc.zero).update c2).get_position|]⟩,
            ?_, by norm_num, by norm_num, fun _ _ h2 => absurd h2 (by omega)⟩
          unfold Motor.dispatch
          rw [h, if_neg hf, if_pos hb, if_pos hpos]
          norm_num
        · by_cases hcnt : m.count < 1000
          · refine ⟨⟨{ m with enc := (m.enc.zero).update c2, turn := 1, back := 0,
                                count := m.count + 1, state := 13 }, q, [0], 5, ["SECOND"]⟩,
              ?_, by norm_num, by norm_num, fun _ _ h2 => absurd h2 (by omega)⟩
            unfold Motor.dispatch
            rw [h, if_neg hf, if_pos hb, if_neg hpos, if_pos hcnt]
            norm_num
          · refine ⟨⟨{ m with enc := (m.enc.zero).update c2, turn := 1, back := 0,
                                state := 0 }, q, [0], 5, ["SECOND"]⟩,
              ?_, by norm_num, by norm_num, fun _ _ h2 => absurd h2 (by omega)⟩
            unfold Motor.dispatch
            rw [h, if_neg hf, if_pos hb, if_neg hpos, if_neg hcnt]
            norm_num
      · refine ⟨⟨{ m with state := 0 }, q, [], 2, ["DONE"]⟩,
          ?_, by norm_num, by norm_num, fun _ _ h2 => absurd h2 (by omega)⟩
        unfold Motor.dispatch
        rw [h, if_neg hf, if_neg hb]
        norm_num

/-- A cycle taken in state 0 with an "R" or "L" wheel and a non-empty
queue pops the head maneuver code into `self.state` and issues no duty
command. -/
lemma Motor.step_state0_pop (M : Motor) (Q : Queue) (c c2 t : ℤ)
    (hst : M.state = 0) (hset : M.set = "R" ∨ M.set = "L") (ha : Q.any = true)
    (ht : t ≠ M.start) :
    M.mot_step Q c c2 t =
      .ok ⟨{ (M.preamble c t).vmeas_update with state := ((Q.get).1 : ℤ) },
           (Q.get).2, [], 2, []⟩ := by
  rw [Motor.mot_step_ok M Q c c2 t ht]
  unfold Motor.dispatch
  rcases hset with hs | hs
  · rw [if_pos (show ((M.preamble c t).vmeas_update).state = 0 by
        rw [Motor.pv_state, hst]),
      if_pos (show ((M.preamble c t).vmeas_update).set = "R" by rw [Motor.pv_set, hs]),
      if_pos ha]
  · rw [if_pos (show ((M.preamble c t).vmeas_update).state = 0 by
        rw [Motor.pv_state, hst]),
      if_neg (show ¬ ((M.preamble c t).vmeas_update).set = "R" by
        rw [Motor.pv_set, hs]; decide),
      if_pos (show ((M.preamble c t).vmeas_update).set = "L" by rw [Motor.pv_set, hs]),
      if_pos ha]

/-- A cycle taken in state 1 runs the LEFT 1 graded-turn body. -/
lemma Motor.step_state1 (M : Motor) (Q : Queue) (c c2 t : ℤ)
    (hst : M.state = 1) (ht : t ≠ M.start) :
    M.mot_step Q c c2 t =
      ((M.preamble c t).vmeas_update).turnCmd Q
        (M.v_ref + M.adjust1) (M.v_ref - M.adjust1 + 0) := by
  rw [Motor.mot_step_ok M Q c c2 t ht]
  unfold Motor.dispatch
  rw [if_neg (show ¬ ((M.preamble c t).vmeas_update).state = 0 by
      rw [Motor.pv_state, hst]; decide),
    if_pos (show ((M.preamble c t).vmeas_update).state = 1 by rw [Motor.pv_state, hst])]
  rfl

/-- Counterexample to claim C6 as stated: a cycle taken in state 1 does
read the odometer (the preamble's `enc.update()`/`get_delta()` run in every
state), and a cycle taken in state 0 with a pending maneuver code issues
zero duty commands — so neither "exactly one duty command every cycle" nor
"no odometer read in states 1–12" holds. -/
theorem motor_side_effects_counterexample :
    (∃ r : MotResult,
      Motor.mot_step { Motor.init (Encoder.init 5) "R" with state := 1 }
        ⟨[], 1000⟩ 0 0 5 = .ok r ∧ r.encReads ≠ 0) ∧
    (∃ r : MotResult,
      Motor.mot_step (Motor.init (Encoder.init 5) "R") ⟨[1], 1000⟩ 0 0 5 = .ok r ∧
      r.cmds = []) :=
  ⟨⟨_, rfl, by norm_num⟩, ⟨_, rfl, rfl⟩⟩

/-- Claim C6, amended: every cycle of the drive state machine reads the
odometer (the preamble runs in every state, including 1–12), and issues at
most one duty command; a cycle in states 1–12 of an "R" or "L" wheel
issues exactly one, while a state-0 cycle that pops a code and some
state-13 phases issue none. -/
theorem motor_step_effects_amended (m : Motor) (q : Queue) (c c2 t : ℤ)
    (ht : t ≠ m.start) (h0 : 0 ≤ m.state) (h13 : m.state ≤ 13) :
    ∃ r : MotResult, m.mot_step q c c2 t = .ok r ∧
      1 ≤ r.encReads ∧ r.cmds.length ≤ 1 ∧
      ((m.set = "R" ∨ m.set = "L") → 1 ≤ m.state → m.state ≤ 12 → r.cmds.length = 1) := by
  rw [Motor.mot_step_ok m q c c2 t ht]
  exact Motor.dispatch_total _ q c2 h0 h13

/-- Witness for the amended C6: a right-wheel machine stepped in state 3. -/
theorem motor_step_effects_amended_witness :
    ∃ r : MotResult,
      Motor.mot_step { Motor.init (Encoder.init 5) "R" with state := 3 }
        ⟨[], 1000⟩ 0 0 5 = .ok r ∧
      1 ≤ r.encReads ∧ r.cmds.length ≤ 1 ∧
      ((({ Motor.init (Encoder.init 5) "R" with state := 3 } : Motor).set = "R" ∨
        ({ Motor.init (Encoder.init 5) "R" with state := 3 } : Motor).set = "L") →
        1 ≤ ({ Motor.init (Encoder.init 5) "R" with state := 3 } : Motor).state →
        ({ Motor.init (Encoder.init 5) "R" with state := 3 } : Motor).state ≤ 12 →
        r.cmds.length = 1) :=
  motor_step_effects_amended { Motor.init (Encoder.init 5) "R" with state := 3 }
    ⟨[], 1000⟩ 0 0 5 (by decide) (by decide) (by decide)

/-- Claim C4: a drive machine in state 0 whose queue holds maneuver code 1
pops the code (issuing no duty command that cycle), and on the next cycle
issues exactly one duty command — `v_ref + adjust1` for the right wheel,
`v_ref - adjust1` for the left wheel — and is back in idle state 0. -/
theorem motor_code1_single_duty (m : Motor) (q : Queue) (rest : List ℕ)
    (c1 c1' c2 c2' t1 t2 : ℤ)
    (hstate : m.state = 0) (hset : m.set = "R" ∨ m.set = "L")
    (hq : q.items = 1 :: rest) (ht1 : t1 ≠ m.start) (ht2 : t2 ≠ t1) :
    ∃ r1 r2 : MotResult,
      m.mot_step q c1 c1' t1 = .ok r1 ∧
      r1.motor.state = 1 ∧ r1.queue.items = rest ∧
      r1.motor.mot_step r1.queue c2 c2' t2 = .ok r2 ∧
      r1.cmds ++ r2.cmds =
        [if m.set = "R" then m.v_ref + m.adjust1 else m.v_ref - m.adjust1 + 0] ∧
      r2.motor.state = 0 := by
  have hany : q.any = true := by simp [Queue.any, hq]
  have hget1 : ((q.get).1 : ℤ) = 1 := by simp [Queue.get, hq]
  have hitems : ((q.get).2).items = rest := by simp [Queue.get, hq]
  have e1 := Motor.step_state0_pop m q c1 c1' t1 hstate hset hany ht1
  rw [hget1] at e1
  have hM1start : ({ (m.preamble c1 t1).vmeas_update with state := 1 } : Motor).start = t1 :=
    rfl
  have e2base := Motor.step_state1
    ({ (m.preamble c1 t1).vmeas_update with state := 1 } : Motor)
    ((q.get).2) c2 c2' t2 rfl (by rw [hM1start]; exact ht2)
  rcases hset with hs | hs
  · have e2 := e2base.trans (Motor.turnCmd_R _ ((q.get).2) _ _
      (show ((({ (m.preamble c1 t1).vmeas_update with state := 1 } : Motor).preamble
          c2 t2).vmeas_update).set = "R" from hs))
    exact ⟨_, _, e1, rfl, hitems, e2, by rw [if_pos hs]; rfl, rfl⟩
  · have e2 := e2base.trans (Motor.turnCmd_L _ ((q.get).2) _ _
      (show ((({ (m.preamble c1 t1).vmeas_update with state := 1 } : Motor).preamble
          c2 t2).vmeas_update).set = "L" from hs))
    exact ⟨_, _, e1, rfl, hitems, e2,
      by rw [if_neg (show ¬ m.set = "R" by rw [hs]; decide)]; rfl, rfl⟩

/-- Witness for C4: the right-wheel machine freshly constructed, queue
holding just the code 1, cycles at `ticks_ms` 5 and 9. -/
theorem motor_code1_single_duty_witness :
    ∃ r1 r2 : MotResult,
      (Motor.init (Encoder.init 5) "R").mot_step ⟨[1], 1000⟩ 0 0 5 = .ok r1 ∧
      r1.motor.state = 1 ∧ r1.queue.items = [] ∧
      r1.motor.mot_step r1.queue 0 0 9 = .ok r2 ∧
      r1.cmds ++ r2.cmds =
        [if (Motor.init (Encoder.init 5) "R").set = "R"
         then (Motor.init (Encoder.init 5) "R").v_ref +
           (Motor.init (Encoder.init 5) "R").adjust1
         else (Motor.init (Encoder.init 5) "R").v_ref -
           (Motor.init (Encoder.init 5) "R").adjust1 + 0] ∧
      r2.motor.state = 0 :=
  motor_code1_single_duty (Motor.init (Encoder.init 5) "R") ⟨[1], 1000⟩ []
    0 0 0 0 5 9 rfl (Or.inl rfl) rfl (by decide) (by decide)
